import Mathlib

/-
Verification development for the LVS configuration resolver of
checks/utils/utils.py: the functions is_valid, substitute_env_variables and
parse_config_file.  The Python code is shallowly embedded: the mutable
environment dictionary becomes an explicit association list threaded through
every call, the file system becomes a finite map from path to parsed JSON
document, logging becomes an explicit list of messages, Python exceptions
become an explicit error value caught at each frame boundary, and the
recursion limit becomes a fuel parameter (running out of fuel models the
RecursionError that the except clause of the caller converts to False).
-/

/-- Environment mapping (be_env): a Python dict from string to string,
modelled as an association list in insertion order; lookup returns the
first (unique) binding, assignment updates in place or appends. -/
abbrev Env := List (String × String)

/-- Dictionary lookup, env[k] / k in env. -/
def envLookup : Env → String → Option String
  | [], _ => none
  | (k0, v0) :: rest, key => if k0 = key then some v0 else envLookup rest key

/-- Dictionary assignment env[k] = v: replaces the value of an existing key
in place, otherwise appends the new binding (Python dict semantics). -/
def envSet : Env → String → String → Env
  | [], k, v => [(k, v)]
  | (k0, v0) :: rest, k, v =>
      if k0 = k then (k0, v) :: rest else (k0, v0) :: envSet rest k v

/-- Membership test on a Python list of strings (val in exports). -/
def listHas : List String → String → Bool
  | [], _ => false
  | x :: rest, y => if x = y then true else listHas rest y

/-- Character membership, modelling the Python substring test for a
single-character needle such as a dollar sign. -/
def hasChar : List Char → Char → Bool
  | [], _ => false
  | c :: rest, d => if c = d then true else hasChar rest d

/-- Word character of the regex token class: ASCII letters, digits and
underscore (the config files only use ASCII identifiers). -/
def isWordChar (c : Char) : Bool := c.isAlphanum || c = '_'

/-- Worker of the regex scan, structurally recursive on a step budget that
its caller fixes to the length of the list (a scan step always consumes at
least one character, so the budget never runs out). -/
def findTokensGo : Nat → List Char → List (List Char)
  | _, [] => []
  | 0, _ :: _ => []
  | Nat.succ n, c :: rest =>
      if c = '$' then
        if (rest.takeWhile isWordChar).isEmpty then findTokensGo n rest
        else ('$' :: rest.takeWhile isWordChar) ::
             findTokensGo n (rest.drop (rest.takeWhile isWordChar).length)
      else findTokensGo n rest

/-- Tokens of the regex scan over a character list: every non-overlapping,
left-to-right, maximal-munch match of a dollar sign followed by one or more
word characters, as re.findall yields them. -/
def findTokens (l : List Char) : List (List Char) := findTokensGo l.length l

/-- Prefix test on character lists. -/
def isPre : List Char → List Char → Bool
  | [], _ => true
  | _ :: _, [] => false
  | a :: as, b :: bs => if a = b then isPre as bs else false

/-- Replacement of the first occurrence of a nonempty pattern, modelling the
Python call string.replace(old, new, 1); when the pattern does not occur the
string is returned unchanged. -/
def replaceFirstAux (pat rep : List Char) : List Char → List Char
  | [] => []
  | c :: rest =>
      if isPre pat (c :: rest) then rep ++ (c :: rest).drop pat.length
      else c :: replaceFirstAux pat rep rest

/-- Name of a token: the token with the leading dollar sign stripped. -/
def tokenName (w : List Char) : String := String.mk (w.drop 1)

/-- Error message logged by substitute_env_variables for a missing variable
(source text: ERROR LVS FAILED, couldn\x27t find environment variable {w}). -/
def substErrMsg (w : String) : String :=
  "ERROR LVS FAILED, couldn\x27t find environment variable " ++ w

/-- Loop body of substitute_env_variables: for each found token in order,
look its name up in the environment; on success replace the first occurrence
of the token in the current string, on failure log and return None. -/
def substLoop : List (List Char) → List Char → Env → Option String × List String
  | [], cur, _ => (some (String.mk cur), [])
  | w :: ws, cur, env =>
      match envLookup env (tokenName w) with
      | some v => substLoop ws (replaceFirstAux w v.data cur) env
      | none => (none, [substErrMsg (String.mk w)])

/-- Embedding of substitute_env_variables(string, env): when the string
contains a dollar sign, scan it once for tokens and run the substitution
loop; the pair carries the Python return value and the logged messages. -/
def substitute_env_variables (string : String) (env : Env) :
    Option String × List String :=
  if hasChar string.data '$' then substLoop (findTokens string.data) string.data env
  else (some string, [])

/-- Embedding of is_valid(string): a value is valid iff it does not start
with a slash. -/
def is_valid (string : String) : Bool :=
  if isPre ['/'] string.data then false else true

/-- Worker of the whitespace split, structurally recursive on a step budget
that its caller fixes to the length of the list. -/
def wsTokensGo : Nat → List Char → List String
  | _, [] => []
  | 0, _ :: _ => []
  | Nat.succ n, c :: rest =>
      if c.isWhitespace then wsTokensGo n rest
      else String.mk (c :: rest.takeWhile (fun d => !d.isWhitespace)) ::
           wsTokensGo n (rest.drop (rest.takeWhile (fun d => !d.isWhitespace)).length)

/-- Python str.split() with no argument, modelling be_env[key].split():
split on runs of whitespace, discarding empty pieces. -/
def splitWS (s : String) : List String := wsTokensGo s.data.length s.data

/-- Python str join with a single space separator. -/
def joinSpace : List String → String
  | [] => ""
  | [x] => x
  | x :: rest => x ++ " " ++ joinSpace rest

/-- JSON value of the supported config schema: each field of the top-level
object is either a scalar string or an array of strings. -/
inductive JVal
  | str (s : String)
  | list (xs : List String)
deriving DecidableEq

/-- Parsed JSON config document: the fields of the top-level object in
file order (dict insertion order, keys unique as json.load yields them). -/
abbrev Doc := List (String × JVal)

/-- File system: a finite map from config file path to its parsed document.
A path mapped to none stands for every way json.load can fail on it:
missing or unreadable file, malformed JSON, or a top level that is not an
object (all raise, and are observed identically through the except clause
apart from the exception class). -/
abbrev FS := List (String × Doc)

/-- Lookup of a path in the file system. -/
def fsLookup : FS → String → Option Doc
  | [], _ => none
  | (p0, d0) :: rest, p => if p0 = p then some d0 else fsLookup rest p

/-- Python exceptions that the body of parse_config_file can raise and its
except clause catches. -/
inductive PyErr
  | fileError                 -- open or json.load failed
  | keyError (k : String)     -- be_env[INCLUDE_CONFIGS] += on a missing key
  | nameError                 -- the name val referenced before assignment
  | recursionError            -- recursion limit reached at a nested call
deriving DecidableEq

/-- Program state threaded through the resolver: the shared mutable
environment plus the list of logged messages in emission order. -/
structure St where
  env : Env
  log : List String
deriving DecidableEq

/-- Append one log line. -/
def addLog (st : St) (m : String) : St := { st with log := st.log ++ [m] }

/-- Append several log lines. -/
def addLogs (st : St) (ms : List String) : St := { st with log := st.log ++ ms }

/-- Assignment into the environment of a state. -/
def envSetSt (st : St) (k v : String) : St := { st with env := envSet st.env k v }

/-- Message logged on entry to parse_config_file. -/
def loadMsg (p : String) : String := "Loading LVS environment from " ++ p

/-- Message logged by the absolute-path rejection branches. -/
def absPathMsg (v : String) : String :=
  v ++ " is an absolute path, paths must start with $PDK_ROOT or $UPRJ_ROOT"

/-- Final line of the except clause. -/
def errFileMsg (p : String) : String := "Error with file " ++ p

/-- Rendering of logging.error(type(err)) for each modelled exception. -/
def errTypeMsg : PyErr → String
  | PyErr.fileError => "<class \x27json.decoder.JSONDecodeError\x27>"
  | PyErr.keyError _ => "<class \x27KeyError\x27>"
  | PyErr.nameError => "<class \x27NameError\x27>"
  | PyErr.recursionError => "<class \x27RecursionError\x27>"

/-- Rendering of logging.error(err.args) for each modelled exception. -/
def errArgsMsg : PyErr → String
  | PyErr.fileError => "(\x27config file could not be parsed\x27,)"
  | PyErr.keyError k => "(\x27" ++ k ++ "\x27,)"
  | PyErr.nameError => "(\x22name \x27val\x27 is not defined\x22,)"
  | PyErr.recursionError => "(\x27maximum recursion depth exceeded\x27,)"

/-- Except clause of parse_config_file: logs the exception class, its
arguments and the offending file, leaving the environment as mutated. -/
def excLogs (st : St) (e : PyErr) (json_file : String) : St :=
  addLog (addLog (addLog st (errTypeMsg e)) (errArgsMsg e)) (errFileMsg json_file)

/-- Control flow of a loop body: normal continuation with a value, an
executed return False, or a raised exception travelling to the except. -/
inductive Ctl (α : Type)
  | ok (a : α)
  | retFalse
  | exc (e : PyErr)
deriving DecidableEq

/-- Inner for-loop of parse_config_file over the elements of a list value
for a fixed key.  Arguments: the recursive loader for child configs, the
key, the remaining elements, the accumulated local exports list, the
current value of the Python local variable val (None before its first
assignment), and the state.  On normal exit it yields the final exports
list and the final value of val. -/
def processVals (child : String → St → St × Except PyErr Bool) (key : String) :
    List String → List String → Option String → St →
    St × Ctl (List String × Option String)
  | [], exports, lastVal, st => (st, Ctl.ok (exports, lastVal))
  | val :: rest, exports, _lastVal, st =>
      if is_valid val then
        match substitute_env_variables val st.env with
        | (none, logs) => (addLogs st logs, Ctl.retFalse)
        | (some v, logs) =>
            if listHas exports v then
              processVals child key rest exports (some v) (addLogs st logs)
            else
              if key = "INCLUDE_CONFIGS" then
                match envLookup (addLogs st logs).env "INCLUDE_CONFIGS" with
                | none => (addLogs st logs, Ctl.exc (PyErr.keyError "INCLUDE_CONFIGS"))
                | some cur =>
                    match child v (envSetSt (addLogs st logs) "INCLUDE_CONFIGS" (cur ++ " " ++ v)) with
                    | (st3, Except.error e) => (st3, Ctl.exc e)
                    | (st3, Except.ok true) =>
                        processVals child key rest (exports ++ [v]) (some v) st3
                    | (st3, Except.ok false) => (st3, Ctl.retFalse)
              else
                processVals child key rest (exports ++ [v]) (some v) (addLogs st logs)
      else (addLog st (absPathMsg val), Ctl.retFalse)

/-- Outer for-loop of parse_config_file over the key and value pairs of the
parsed document, threading the Python local variable val across keys; the
normal result is the final value of val. -/
def processItems (child : String → St → St × Except PyErr Bool) :
    Doc → Option String → St → St × Ctl (Option String)
  | [], lastVal, st => (st, Ctl.ok lastVal)
  | (key, JVal.list vals) :: rest, lastVal, st =>
      match processVals child key vals
          (match envLookup st.env key with
           | some s => splitWS s
           | none => []) lastVal st with
      | (st1, Ctl.exc e) => (st1, Ctl.exc e)
      | (st1, Ctl.retFalse) => (st1, Ctl.retFalse)
      | (st1, Ctl.ok (exports1, lastVal1)) =>
          processItems child rest lastVal1
            (if key = "INCLUDE_CONFIGS" then st1
             else envSetSt st1 key (joinSpace exports1))
  | (key, JVal.str value) :: rest, lastVal, st =>
      if is_valid value then
        match substitute_env_variables value st.env with
        | (none, logs) => (addLogs st logs, Ctl.retFalse)
        | (some v, logs) => processItems child rest lastVal (envSetSt (addLogs st logs) key v)
      else
        match lastVal with
        | some lv => (addLog st (absPathMsg lv), Ctl.retFalse)
        | none => (st, Ctl.exc PyErr.nameError)

/-- Body of parse_config_file(json_file, be_env): log the load, parse the
file, run the key loop, and convert every raised exception into the logged
except clause and the return value false. -/
def parse_config_file_body (fs : FS) (child : String → St → St × Except PyErr Bool)
    (json_file : String) (st : St) : St × Bool :=
  match fsLookup fs json_file with
  | none => (excLogs (addLog st (loadMsg json_file)) PyErr.fileError json_file, false)
  | some data =>
      match processItems child data none (addLog st (loadMsg json_file)) with
      | (st1, Ctl.ok _) => (st1, true)
      | (st1, Ctl.retFalse) => (st1, false)
      | (st1, Ctl.exc e) => (excLogs st1 e json_file, false)

/-- Embedding of parse_config_file with a fuel parameter modelling the
Python recursion limit: a frame with fuel n may enter child frames with
fuel n - 1, and a child call at fuel zero raises recursionError into the
calling frame, whose except clause converts it to false, exactly as a
RecursionError is caught in Python. -/
def parse_config_file (fs : FS) : Nat → String → St → St × Bool
  | 0, json_file, st =>
      parse_config_file_body fs
        (fun _ st1 => (st1, Except.error PyErr.recursionError)) json_file st
  | Nat.succ fuel, json_file, st =>
      parse_config_file_body fs
        (fun p st1 =>
          match parse_config_file fs fuel p st1 with
          | (st2, b) => (st2, Except.ok b)) json_file st

/-- Child-call closure of parse_config_file at a given fuel, named so that
theorems can speak about the frame body uniformly. -/
def parse_config_file_child (fs : FS) : Nat → String → St → St × Except PyErr Bool
  | 0, _, st => (st, Except.error PyErr.recursionError)
  | Nat.succ fuel, p, st =>
      match parse_config_file fs fuel p st with
      | (st2, b) => (st2, Except.ok b)

/-- Number of times a given config path was loaded, counted from the log. -/
def loadCount (log : List String) (p : String) : Nat :=
  (log.filter (fun m => m = loadMsg p)).length

/-- Keys of a document in order. -/
def docKeys (d : Doc) : List String := d.map Prod.fst

/-- First token of a scan list whose name is absent from the environment. -/
def firstMissing (env : Env) : List (List Char) → Option (List Char)
  | [] => none
  | w :: ws =>
      if (envLookup env (tokenName w)).isSome then firstMissing env ws else some w

/-- One-occurrence replacement of every token of a scan list in order, each
against the current intermediate string. -/
def applyTokens (env : Env) : List (List Char) → List Char → List Char
  | [], cur => cur
  | w :: ws, cur =>
      applyTokens env ws
        (replaceFirstAux w ((envLookup env (tokenName w)).getD "").data cur)

lemma substLoop_char (env : Env) :
    ∀ (ws : List (List Char)) (cur : List Char),
      substLoop ws cur env =
        match firstMissing env ws with
        | some w => (none, [substErrMsg (String.mk w)])
        | none => (some (String.mk (applyTokens env ws cur)), []) := by
  intro ws
  induction ws with
  | nil => intro cur; simp [substLoop, firstMissing, applyTokens]
  | cons w ws ih =>
      intro cur
      cases h : envLookup env (tokenName w) with
      | none => simp [substLoop, firstMissing, applyTokens, h]
      | some v => simp [substLoop, firstMissing, applyTokens, h, ih]

lemma findTokensGo_no_dollar :
    ∀ (n : Nat) (l : List Char), hasChar l '$' = false → findTokensGo n l = [] := by
  intro n
  induction n with
  | zero => intro l _; cases l <;> rfl
  | succ n ih =>
      intro l h
      cases l with
      | nil => rfl
      | cons c rest =>
          rw [hasChar] at h
          by_cases hc : c = '$'
          · rw [if_pos hc] at h; exact absurd h (by simp)
          · rw [if_neg hc] at h
            simpa [findTokensGo, hc] using ih rest h

lemma findTokens_no_dollar (l : List Char) (h : hasChar l '$' = false) :
    findTokens l = [] := findTokensGo_no_dollar l.length l h

lemma string_mk_data (s : String) : String.mk s.data = s := by
  cases s; rfl

/-- Characterization of substitute_env_variables: the scan list is computed
once from the input; if every token name is bound the result applies one
first-occurrence replacement per token occurrence in scan order with no log,
and otherwise the result is None with a single error line naming the first
missing token. -/
lemma subst_char (s : String) (env : Env) :
    substitute_env_variables s env =
      match firstMissing env (findTokens s.data) with
      | some w => (none, [substErrMsg (String.mk w)])
      | none => (some (String.mk (applyTokens env (findTokens s.data) s.data)), []) := by
  rw [substitute_env_variables]
  by_cases h : hasChar s.data '$' = true
  · rw [if_pos h, substLoop_char]
  · rw [if_neg h]
    rw [findTokens_no_dollar s.data (by revert h; cases hasChar s.data '$' <;> simp)]
    simp [firstMissing, applyTokens, string_mk_data]

lemma subst_success_log (s : String) (env : Env) (w : String) (logs : List String)
    (h : substitute_env_variables s env = (some w, logs)) : logs = [] := by
  rw [subst_char] at h
  cases h' : firstMissing env (findTokens s.data) with
  | none => rw [h'] at h; exact ((Prod.ext_iff.mp h).2).symm
  | some w' => rw [h'] at h; exact absurd (Prod.ext_iff.mp h).1 (by simp)

@[simp] lemma addLog_env (st : St) (m : String) : (addLog st m).env = st.env := rfl

@[simp] lemma addLogs_env (st : St) (ms : List String) : (addLogs st ms).env = st.env := rfl

@[simp] lemma envSetSt_env (st : St) (k v : String) :
    (envSetSt st k v).env = envSet st.env k v := rfl

@[simp] lemma excLogs_env (st : St) (e : PyErr) (p : String) :
    (excLogs st e p).env = st.env := rfl

lemma addLogs_nil (st : St) : addLogs st [] = st := by
  simp [addLogs]

lemma envLookup_envSet (e : Env) (k v k' : String) :
    envLookup (envSet e k v) k' = if k = k' then some v else envLookup e k' := by
  induction e with
  | nil =>
      rw [envSet, envLookup]
      by_cases h : k = k' <;> simp [h, envLookup]
  | cons hd rest ih =>
      obtain ⟨k0, v0⟩ := hd
      by_cases h0 : k0 = k
      · subst h0
        rw [envSet, if_pos rfl, envLookup, envLookup]
        by_cases h1 : k0 = k' <;> simp [h1]
      · rw [envSet, if_neg h0, envLookup]
        by_cases h1 : k0 = k'
        · subst h1
          rw [if_pos rfl, envLookup, if_pos rfl, if_neg (fun he => h0 he.symm)]
        · rw [if_neg h1, envLookup, if_neg h1, ih]

lemma envSet_self (e : Env) (k v : String) (h : envLookup e k = some v) :
    envSet e k v = e := by
  induction e with
  | nil => rw [envLookup] at h; exact absurd h (by simp)
  | cons hd rest ih =>
      obtain ⟨k0, v0⟩ := hd
      by_cases h0 : k0 = k
      · rw [envLookup, if_pos h0] at h
        rw [envSet, if_pos h0]
        injection h with hv
        rw [hv]
      · rw [envLookup, if_neg h0] at h
        rw [envSet, if_neg h0, ih h]

lemma substLoop_agree (e1 e2 : Env) :
    ∀ (ws : List (List Char)) (cur : List Char),
      (∀ w ∈ ws, envLookup e1 (tokenName w) = envLookup e2 (tokenName w)) →
      substLoop ws cur e1 = substLoop ws cur e2 := by
  intro ws
  induction ws with
  | nil => intro cur _; rfl
  | cons w ws ih =>
      intro cur h
      have hw := h w (List.mem_cons_self w ws)
      rw [substLoop, substLoop, hw]
      cases envLookup e2 (tokenName w) with
      | none => rfl
      | some v => exact ih _ (fun x hx => h x (List.mem_cons_of_mem w hx))

lemma substitute_agree (s : String) (e1 e2 : Env)
    (h : ∀ w ∈ findTokens s.data, envLookup e1 (tokenName w) = envLookup e2 (tokenName w)) :
    substitute_env_variables s e1 = substitute_env_variables s e2 := by
  rw [substitute_env_variables, substitute_env_variables]
  by_cases hd : hasChar s.data '$' = true
  · rw [if_pos hd, if_pos hd]
    exact substLoop_agree e1 e2 _ _ h
  · rw [if_neg hd, if_neg hd]

lemma processVals_env (child : String → St → St × Except PyErr Bool)
    (key : String) (hk : key ≠ "INCLUDE_CONFIGS") :
    ∀ (vals exports : List String) (lv : Option String) (st : St),
      ((processVals child key vals exports lv st).1).env = st.env := by
  intro vals
  induction vals with
  | nil => intro exports lv st; rfl
  | cons val rest ih =>
      intro exports lv st
      rw [processVals]
      by_cases hv : is_valid val = true
      · rw [if_pos hv]
        rcases hs : substitute_env_variables val st.env with ⟨o, logs⟩
        cases o with
        | none => simp
        | some v =>
            by_cases hh : listHas exports v = true
            · simp [hh, ih]
            · simp [hh, hk, ih]
      · rw [if_neg hv]
        rfl

/-- Predicate: every value of the document is a scalar string. -/
def allScalar : Doc → Bool
  | [] => true
  | (_, JVal.str _) :: rest => allScalar rest
  | (_, JVal.list _) :: _ => false

/-- Predicate: no token of any scalar value of the document names a key in
the given list. -/
def tokensAvoid (ks : List String) : Doc → Bool
  | [] => true
  | (_, JVal.str v) :: rest =>
      ((findTokens v.data).all fun w => !(listHas ks (tokenName w))) && tokensAvoid ks rest
  | (_, JVal.list _) :: rest => tokensAvoid ks rest

lemma processItems_env_outside (child : String → St → St × Except PyErr Bool) :
    ∀ (d : Doc) (lv : Option String) (st : St) (n : String),
      allScalar d = true → n ∉ docKeys d →
      envLookup ((processItems child d lv st).1).env n = envLookup st.env n := by
  intro d
  induction d with
  | nil => intro lv st n _ _; rfl
  | cons hd rest ih =>
      obtain ⟨k, jv⟩ := hd
      intro lv st n ha hn
      cases jv with
      | list xs => exact absurd ha (by simp [allScalar])
      | str v =>
          have ha' : allScalar rest = true := by simpa [allScalar] using ha
          have hnk : n ≠ k := by
            intro he; exact hn (by simp [docKeys, he])
          have hn' : n ∉ docKeys rest := by
            intro hmem; exact hn (by simp [docKeys] at hmem ⊢; right; exact hmem)
          simp only [processItems]
          by_cases hv : is_valid v = true
          · rw [if_pos hv]
            rcases hs : substitute_env_variables v st.env with ⟨o, logs⟩
            cases o with
            | none => simp
            | some w =>
                show envLookup
                    (processItems child rest lv (envSetSt (addLogs st logs) k w)).1.env n
                      = envLookup st.env n
                rw [ih lv (envSetSt (addLogs st logs) k w) n ha' hn']
                rw [envSetSt_env, addLogs_env, envLookup_envSet]
                rw [if_neg (fun he => hnk he.symm)]
          · rw [if_neg hv]
            cases lv with
            | some lv0 => rfl
            | none => rfl

lemma listHas_iff (l : List String) (x : String) : listHas l x = true ↔ x ∈ l := by
  induction l with
  | nil => simp [listHas]
  | cons y rest ih =>
      rw [listHas]
      by_cases h : y = x
      · simp [h]
      · rw [if_neg h, ih]
        constructor
        · intro hx; exact List.mem_cons_of_mem y hx
        · intro hx
          rcases List.mem_cons.mp hx with he | hx2
          · exact absurd he.symm h
          · exact hx2

lemma processItems_idem :
    ∀ (d : Doc) (ks : List String)
      (child child' : String → St → St × Except PyErr Bool)
      (lv lv' : Option String) (st0 st1 : St) (r : Option String) (st2 : St),
      allScalar d = true →
      (docKeys d).Nodup →
      (∀ x ∈ docKeys d, x ∈ ks) →
      tokensAvoid ks d = true →
      processItems child d lv st0 = (st1, Ctl.ok r) →
      st2.env = st1.env →
      processItems child' d lv' st2 = (st2, Ctl.ok lv') := by
  intro d
  induction d with
  | nil =>
      intro ks child child' lv lv' st0 st1 r st2 _ _ _ _ _ _
      rfl
  | cons hd rest ih =>
      obtain ⟨k, jv⟩ := hd
      intro ks child child' lv lv' st0 st1 r st2 ha hnd hsub hav h1 h2
      cases jv with
      | list xs => exact absurd ha (by simp [allScalar])
      | str v =>
          have ha' : allScalar rest = true := by simpa [allScalar] using ha
          have hnd0 : k ∉ docKeys rest ∧ (docKeys rest).Nodup := by
            rw [show docKeys ((k, JVal.str v) :: rest) = k :: docKeys rest from rfl] at hnd
            exact List.nodup_cons.mp hnd
          have hsub' : ∀ x ∈ docKeys rest, x ∈ ks := by
            intro x hx
            exact hsub x (by simp [docKeys] at hx ⊢; right; exact hx)
          have hkks : k ∈ ks := hsub k (by simp [docKeys])
          have havv : (findTokens v.data).all (fun w => !(listHas ks (tokenName w))) = true := by
            rw [tokensAvoid] at hav
            exact (Bool.and_eq_true_iff.mp hav).1
          have hav' : tokensAvoid ks rest = true := by
            rw [tokensAvoid] at hav
            exact (Bool.and_eq_true_iff.mp hav).2
          simp only [processItems] at h1
          by_cases hv : is_valid v = true
          · rw [if_pos hv] at h1
            rcases hs : substitute_env_variables v st0.env with ⟨o, logs⟩
            rw [hs] at h1
            cases o with
            | none =>
                replace h1 : (addLogs st0 logs, Ctl.retFalse) = (st1, Ctl.ok r) := h1
                cases (Prod.ext_iff.mp h1).2
            | some w =>
                replace h1 :
                    processItems child rest lv (envSetSt (addLogs st0 logs) k w)
                      = (st1, Ctl.ok r) := h1
                have hlogs : logs = [] := subst_success_log v st0.env w logs hs
                subst hlogs
                rw [addLogs_nil] at h1
                have hag : ∀ x, x ∉ docKeys rest →
                    envLookup st1.env x = envLookup (envSet st0.env k w) x := by
                  intro x hx
                  have base := processItems_env_outside child rest lv (envSetSt st0 k w) x ha' hx
                  rw [h1] at base
                  simpa using base
                have hk1 : envLookup st1.env k = some w := by
                  rw [hag k hnd0.1, envLookup_envSet, if_pos rfl]
                have hagree : ∀ tok ∈ findTokens v.data,
                    envLookup st2.env (tokenName tok) = envLookup st0.env (tokenName tok) := by
                  intro tok htok
                  have hfalse : listHas ks (tokenName tok) = false := by
                    have := List.all_eq_true.mp havv tok htok
                    revert this
                    cases listHas ks (tokenName tok) <;> simp
                  have hname : tokenName tok ∉ ks := by
                    intro hmem
                    rw [(listHas_iff ks (tokenName tok)).mpr hmem] at hfalse
                    exact absurd hfalse (by simp)
                  have hnk : tokenName tok ≠ k := fun he => hname (he ▸ hkks)
                  have hnr : tokenName tok ∉ docKeys rest := fun hmem => hname (hsub' _ hmem)
                  rw [h2, hag _ hnr, envLookup_envSet, if_neg (fun he => hnk he.symm)]
                have hsubeq : substitute_env_variables v st2.env = (some w, []) :=
                  (substitute_agree v st2.env st0.env hagree).trans hs
                simp only [processItems]
                rw [if_pos hv, hsubeq]
                show processItems child' rest lv' (envSetSt (addLogs st2 []) k w)
                    = (st2, Ctl.ok lv')
                rw [addLogs_nil]
                have hset : envSetSt st2 k w = st2 := by
                  show { st2 with env := envSet st2.env k w } = st2
                  rw [envSet_self st2.env k w (by rw [h2]; exact hk1)]
                rw [hset]
                exact ih ks child child' lv lv' (envSetSt st0 k w) st1 r st2
                  ha' hnd0.2 hsub' hav' h1 h2
          · rw [if_neg hv] at h1
            cases lv with
            | some lv0 =>
                replace h1 : (addLog st0 (absPathMsg lv0), Ctl.retFalse) = (st1, Ctl.ok r) := h1
                cases (Prod.ext_iff.mp h1).2
            | none =>
                replace h1 : (st0, Ctl.exc PyErr.nameError) = (st1, Ctl.ok r) := h1
                cases (Prod.ext_iff.mp h1).2

lemma parse_config_file_eq (fs : FS) (fuel : Nat) (p : String) (st : St) :
    parse_config_file fs fuel p st
      = parse_config_file_body fs (parse_config_file_child fs fuel) p st := by
  cases fuel <;> rfl

/-- Child function that accepts every include without doing anything, used
to instantiate lemmas that hold for an arbitrary recursive loader. -/
def trivialChild : String → St → St × Except PyErr Bool :=
  fun _ st => (st, Except.ok true)

/-- Include graph in which A includes B and C, and B includes C: the local
exports snapshot of the frame for A predates the nested load of C. -/
def fsDup : FS :=
  [("A", [("INCLUDE_CONFIGS", JVal.list ["B", "C"])]),
   ("B", [("INCLUDE_CONFIGS", JVal.list ["C"])]),
   ("C", [])]

/-- Diamond include graph: A includes B and C, B and C both include D. -/
def fsDiamond : FS :=
  [("A", [("INCLUDE_CONFIGS", JVal.list ["B", "C"])]),
   ("B", [("INCLUDE_CONFIGS", JVal.list ["D"])]),
   ("C", [("INCLUDE_CONFIGS", JVal.list ["D"])]),
   ("D", [])]

/-- Seed state whose environment carries the top-level config path in
INCLUDE_CONFIGS, as run_be_check sets it up before the first call. -/
def seedInc : St := ⟨[("INCLUDE_CONFIGS", "A")], []⟩

/-- Single config document whose only value refers to its own key. -/
def fsSelfRef : FS := [("cfg", [("A", JVal.str "y$A")])]

/-- Scalar-only document with no includes and no self references. -/
def fsIdem : FS := [("c", [("A", JVal.str "$B"), ("C", JVal.str "x")])]

/-- Include list whose second element references an undefined variable
after a first element that loads fine. -/
def fsIncFail : FS :=
  [("A", [("INCLUDE_CONFIGS", JVal.list ["B", "$X"])]), ("B", [])]

/-- Document whose list element is anchored at a variable that expands to
an absolute path. -/
def fsPdk : FS := [("cfg", [("LVS_IGNORE", JVal.list ["$PDK_ROOT/ignore1"])])]

/-- Seed environment binding PDK_ROOT to an absolute path. -/
def stPdk : St := ⟨[("PDK_ROOT", "/pdk")], []⟩

/-- Two sibling config files sharing one list-valued key with overlapping
elements. -/
def fsTwoLists (k : String) : FS :=
  [("f1", [(k, JVal.list ["a", "b"])]), ("f2", [(k, JVal.list ["b", "c"])])]

/-- Document whose first processed value is an absolute-path scalar, so the
Python name val is still unbound when the logging line references it. -/
def fsScalarAbs : FS := [("cfg", [("K", JVal.str "/abs/path")])]

/-- Document with a list key processed before an absolute-path scalar, so
the stale val from the list survives into the scalar error message. -/
def fsScalarAbs2 : FS :=
  [("cfg2", [("L", JVal.list ["x"]), ("K", JVal.str "/abs/path")])]

/-- Top-level file with an include list while the seed environment lacks
the INCLUDE_CONFIGS key, so the += bookkeeping raises KeyError. -/
def fsSeedless : FS := [("f", [("INCLUDE_CONFIGS", JVal.list ["g"])])]

/-- Claim C1: the claim states that parse_config_file parses each distinct
config file path at most once over any include graph, in particular loading
D exactly once in the diamond graph.  The diamond part holds, but the
universal part is false, contradicting the source comment saying the
INCLUDE_CONFIGS bookkeeping prevents loading the same config twice: in the
graph where A includes B and C and B includes C, the frame for A tests C
against its local exports snapshot taken before the recursive load of B, so
C is parsed twice (and the tracking string ends as A B C C). -/
theorem include_config_loaded_twice :
    (parse_config_file fsDup 5 "A" seedInc).2 = true ∧
    loadCount (parse_config_file fsDup 5 "A" seedInc).1.log "C" = 2 ∧
    envLookup (parse_config_file fsDup 5 "A" seedInc).1.env "INCLUDE_CONFIGS"
      = some "A B C C" ∧
    (parse_config_file fsDiamond 5 "A" seedInc).2 = true ∧
    loadCount (parse_config_file fsDiamond 5 "A" seedInc).1.log "D" = 1 := by
  decide

/-- Claim C2: substitute_env_variables scans the string once, left to
right, for maximal tokens of a dollar sign followed by word characters;
when every token name is bound in the environment, each token occurrence
receives its own first-remaining-occurrence replacement in scan order with
nothing logged, and when some token name is unbound the call returns None
(distinct from an empty substitution) and logs one error line naming the
missing variable. -/
theorem substitute_env_variables_scan_characterization (s : String) (env : Env) :
    substitute_env_variables s env =
      match firstMissing env (findTokens s.data) with
      | some w => (none, [substErrMsg (String.mk w)])
      | none =>
          (some (String.mk (applyTokens env (findTokens s.data) s.data)), []) :=
  subst_char s env

/-- Claim C3 counterexample: the claim asserts idempotence of resolution
for every include-free document; for the document assigning the value y$A
to the key A, resolving once from A bound to x yields yx and resolving a
second time yields yyx, so resolving twice does not equal resolving once. -/
theorem parse_twice_differs_self_reference :
    (parse_config_file fsSelfRef 1 "cfg" ⟨[("A", "x")], []⟩).2 = true ∧
    envLookup (parse_config_file fsSelfRef 1 "cfg" ⟨[("A", "x")], []⟩).1.env "A"
      = some "yx" ∧
    envLookup (parse_config_file fsSelfRef 1 "cfg"
        (parse_config_file fsSelfRef 1 "cfg" ⟨[("A", "x")], []⟩).1).1.env "A"
      = some "yyx" := by
  decide

/-- Claim C3 amended: for a config document with no list values and hence
no includes, whose keys are distinct and whose values reference no key that
the document itself writes, a second resolution after a successful one
succeeds again and leaves the environment exactly as the first resolution
left it. -/
theorem parse_scalar_doc_idempotent
    (fs : FS) (fuel fuel' : Nat) (p : String) (st0 st1 : St) (d : Doc)
    (hd : fsLookup fs p = some d)
    (ha : allScalar d = true)
    (hnd : (docKeys d).Nodup)
    (hav : tokensAvoid (docKeys d) d = true)
    (h1 : parse_config_file fs fuel p st0 = (st1, true)) :
    (parse_config_file fs fuel' p st1).2 = true ∧
    (parse_config_file fs fuel' p st1).1.env = st1.env := by
  rw [parse_config_file_eq] at h1
  rw [parse_config_file_eq]
  simp only [parse_config_file_body, hd] at h1 ⊢
  rcases hp : processItems (parse_config_file_child fs fuel) d none
      (addLog st0 (loadMsg p)) with ⟨stA, f⟩
  rw [hp] at h1
  cases f with
  | retFalse =>
      replace h1 : (stA, false) = (st1, true) := h1
      exact absurd (Prod.ext_iff.mp h1).2 (by simp)
  | exc e =>
      replace h1 : (excLogs stA e p, false) = (st1, true) := h1
      exact absurd (Prod.ext_iff.mp h1).2 (by simp)
  | ok r =>
      replace h1 : (stA, true) = (st1, true) := h1
      have hstA : stA = st1 := (Prod.ext_iff.mp h1).1
      subst hstA
      have hpass2 := processItems_idem d (docKeys d)
        (parse_config_file_child fs fuel) (parse_config_file_child fs fuel')
        none none (addLog st0 (loadMsg p)) stA r (addLog stA (loadMsg p))
        ha hnd (fun x hx => hx) hav hp rfl
      rw [hpass2]
      exact ⟨rfl, rfl⟩

/-- Witness for the amended claim C3: re-resolving the scalar document at
path c after one successful resolution succeeds and leaves the environment
unchanged. -/
theorem parse_scalar_doc_idempotent_witness :
    (parse_config_file fsIdem 1 "c"
        ⟨[("B", "b"), ("A", "b"), ("C", "x")], [loadMsg "c"]⟩).2 = true ∧
    (parse_config_file fsIdem 1 "c"
        ⟨[("B", "b"), ("A", "b"), ("C", "x")], [loadMsg "c"]⟩).1.env
      = [("B", "b"), ("A", "b"), ("C", "x")] :=
  parse_scalar_doc_idempotent fsIdem 1 1 "c" ⟨[("B", "b")], []⟩
    ⟨[("B", "b"), ("A", "b"), ("C", "x")], [loadMsg "c"]⟩
    [("A", JVal.str "$B"), ("C", JVal.str "x")]
    (by decide) (by decide) (by decide) (by decide) (by decide)

/-- Claim C4 counterexample: the claim asserts that when a value element
references an undefined variable the key being processed receives no
partial write; for the include list B then the undefined reference to X,
resolution fails but the INCLUDE_CONFIGS key has grown from A to A B. -/
theorem parse_include_partial_write_on_failure :
    (parse_config_file fsIncFail 3 "A" seedInc).2 = false ∧
    envLookup (parse_config_file fsIncFail 3 "A" seedInc).1.env "INCLUDE_CONFIGS"
      = some "A B" := by
  decide

/-- Claim C4 amended: when a value references a variable absent from the
environment, resolution fails with the substitution error logged and false
returned, and the key whose value was being processed receives no write,
except for the INCLUDE_CONFIGS key, whose bookkeeping writes for elements
processed before the failing one persist: for every other key the element
loop never touches the environment at all, and a failing scalar aborts
before its assignment. -/
theorem parse_non_include_no_partial_write
    (child : String → St → St × Except PyErr Bool) (k : String)
    (hk : k ≠ "INCLUDE_CONFIGS") :
    (∀ (vals exports : List String) (lv : Option String) (st : St),
       ((processVals child k vals exports lv st).1).env = st.env) ∧
    (∀ (v : String) (vals exports : List String) (lv : Option String)
       (st : St) (logs : List String),
       is_valid v = true →
       substitute_env_variables v st.env = (none, logs) →
       processVals child k (v :: vals) exports lv st = (addLogs st logs, Ctl.retFalse)) ∧
    (∀ (v : String) (rest : Doc) (lv : Option String) (st : St) (logs : List String),
       is_valid v = true →
       substitute_env_variables v st.env = (none, logs) →
       processItems child ((k, JVal.str v) :: rest) lv st
         = (addLogs st logs, Ctl.retFalse)) := by
  refine ⟨processVals_env child k hk, ?_, ?_⟩
  · intro v vals exports lv st logs hv hs
    simp [processVals, hv, hs]
  · intro v rest lv st logs hv hs
    simp [processItems, hv, hs]

/-- Witness for the amended claim C4: a failing element for the key
LVS_IGNORE leaves the environment empty and returns through retFalse with
only the substitution error logged. -/
theorem parse_non_include_no_partial_write_witness :
    ((processVals trivialChild "LVS_IGNORE" ["$MISSING"] [] none ⟨[], []⟩).1).env = [] ∧
    processVals trivialChild "LVS_IGNORE" ["$MISSING"] [] none ⟨[], []⟩
      = (addLogs ⟨[], []⟩ [substErrMsg "$MISSING"], Ctl.retFalse) :=
  have h := parse_non_include_no_partial_write trivialChild "LVS_IGNORE" (by decide)
  ⟨h.1 ["$MISSING"] [] none ⟨[], []⟩,
   h.2.1 "$MISSING" [] [] none ⟨[], []⟩ [substErrMsg "$MISSING"] (by decide) (by decide)⟩

/-- Claim C5: the absolute-path check applies to the pre-substitution text
of every list element: an element starting with a slash is rejected with
the error logged and retFalse before any substitution is attempted,
uniformly in the environment, while with PDK_ROOT seeded to /pdk the
element anchored at the PDK_ROOT token passes the check and resolves to an
absolute path stored under LVS_IGNORE. -/
theorem absolute_path_checked_before_substitution :
    (∀ (child : String → St → St × Except PyErr Bool) (key val : String)
       (vals exports : List String) (lv : Option String) (st : St),
       isPre ['/'] val.data = true →
       processVals child key (val :: vals) exports lv st
         = (addLog st (absPathMsg val), Ctl.retFalse)) ∧
    (parse_config_file fsPdk 1 "cfg" stPdk).2 = true ∧
    envLookup (parse_config_file fsPdk 1 "cfg" stPdk).1.env "LVS_IGNORE"
      = some "/pdk/ignore1" := by
  refine ⟨?_, by decide, by decide⟩
  intro child key val vals exports lv st h
  have hv : is_valid val = false := by rw [is_valid, if_pos h]
  simp [processVals, hv]

/-- Witness for claim C5: a concrete element starting with a slash is
rejected with only the absolute-path error logged. -/
theorem absolute_path_checked_before_substitution_witness :
    processVals trivialChild "LVS_SPICE_FILES" ["/abs/path"] [] none ⟨[], []⟩
      = (addLog ⟨[], []⟩ (absPathMsg "/abs/path"), Ctl.retFalse) :=
  (absolute_path_checked_before_substitution).1 trivialChild "LVS_SPICE_FILES"
    "/abs/path" [] [] none ⟨[], []⟩ (by decide)

/-- Claim C6: a list-valued key other than INCLUDE_CONFIGS appearing in two
config files resolved in sequence against the same environment accumulates:
the second file starts from the whitespace-split of the stored value, skips
elements already present, appends the new ones, and stores the joined
result, so a and b followed by b and c yields a b c. -/
theorem list_values_append_dedup (k : String) (st0 : St)
    (hk : k ≠ "INCLUDE_CONFIGS") (h0 : envLookup st0.env k = none) :
    (parse_config_file (fsTwoLists k) 1 "f1" st0).2 = true ∧
    (parse_config_file (fsTwoLists k) 1 "f2"
        (parse_config_file (fsTwoLists k) 1 "f1" st0).1).2 = true ∧
    envLookup (parse_config_file (fsTwoLists k) 1 "f2"
        (parse_config_file (fsTwoLists k) 1 "f1" st0).1).1.env k
      = some "a b c" := by
  have h1 : parse_config_file (fsTwoLists k) 1 "f1" st0
      = (envSetSt (addLog st0 (loadMsg "f1")) k "a b", true) := by
    rw [parse_config_file_eq]
    simp +decide [parse_config_file_body, fsTwoLists, fsLookup, processItems,
      processVals, substitute_env_variables, hasChar, is_valid, isPre, listHas,
      joinSpace, h0, hk, addLogs]
    rfl
  have hlook1 : envLookup (envSet st0.env k "a b") k = some "a b" := by
    rw [envLookup_envSet, if_pos rfl]
  have h2 : parse_config_file (fsTwoLists k) 1 "f2"
      (envSetSt (addLog st0 (loadMsg "f1")) k "a b")
      = (envSetSt (addLog (envSetSt (addLog st0 (loadMsg "f1")) k "a b")
          (loadMsg "f2")) k "a b c", true) := by
    rw [parse_config_file_eq]
    simp +decide [parse_config_file_body, fsTwoLists, fsLookup, processItems,
      processVals, substitute_env_variables, hasChar, is_valid, isPre, listHas,
      joinSpace, splitWS, wsTokensGo, hlook1, hk, addLogs]
    rfl
  refine ⟨by rw [h1], ?_, ?_⟩
  · rw [h1]
    show (parse_config_file (fsTwoLists k) 1 "f2"
      (envSetSt (addLog st0 (loadMsg "f1")) k "a b")).2 = true
    rw [h2]
  · rw [h1]
    show envLookup (parse_config_file (fsTwoLists k) 1 "f2"
        (envSetSt (addLog st0 (loadMsg "f1")) k "a b")).1.env k = some "a b c"
    rw [h2, envSetSt_env, addLog_env, envLookup_envSet, if_pos rfl]

/-- Witness for claim C6 at a concrete key and an empty seed state. -/
theorem list_values_append_dedup_witness :
    envLookup (parse_config_file (fsTwoLists "LVS_SPICE_FILES") 1 "f2"
        (parse_config_file (fsTwoLists "LVS_SPICE_FILES") 1 "f1" ⟨[], []⟩).1).1.env
      "LVS_SPICE_FILES" = some "a b c" :=
  (list_values_append_dedup "LVS_SPICE_FILES" ⟨[], []⟩ (by decide) rfl).2.2

/-- Claim C7: for every path whose contents fail to parse as a JSON object,
parse_config_file logs the load attempt and the caught failure, returns
false, and leaves the environment exactly as it was on entry. -/
theorem parse_failure_leaves_env (fs : FS) (fuel : Nat) (p : String) (st : St)
    (h : fsLookup fs p = none) :
    parse_config_file fs fuel p st
      = (excLogs (addLog st (loadMsg p)) PyErr.fileError p, false) ∧
    (parse_config_file fs fuel p st).1.env = st.env := by
  have hb : parse_config_file fs fuel p st
      = (excLogs (addLog st (loadMsg p)) PyErr.fileError p, false) := by
    rw [parse_config_file_eq]
    simp only [parse_config_file_body, h]
  exact ⟨hb, by rw [hb]; simp⟩

/-- Witness for claim C7 on an empty file system. -/
theorem parse_failure_leaves_env_witness :
    parse_config_file [] 1 "missing.json" ⟨[("PDK", "x")], []⟩
      = (excLogs (addLog ⟨[("PDK", "x")], []⟩ (loadMsg "missing.json"))
          PyErr.fileError "missing.json", false) :=
  (parse_failure_leaves_env [] 1 "missing.json" ⟨[("PDK", "x")], []⟩ rfl).1

/-- Claim C8: the claim states that a scalar value beginning with a slash
is rejected with an error identifying the offending value.  The rejection,
the false return, the absence of a write and the absence of substitution
all hold, but the logging line references the loop variable val instead of
the scalar value: when no list element was processed before, the name val
is unbound and the frame logs a caught NameError naming val, and when a
list was processed earlier the stale last element is logged in place of the
offending scalar, so the logged text never identifies the offending value. -/
theorem scalar_absolute_path_logs_wrong_value :
    parse_config_file fsScalarAbs 1 "cfg" ⟨[], []⟩
      = (⟨[], [loadMsg "cfg", errTypeMsg PyErr.nameError,
              errArgsMsg PyErr.nameError, errFileMsg "cfg"]⟩, false) ∧
    parse_config_file fsScalarAbs2 1 "cfg2" ⟨[], []⟩
      = (⟨[("L", "x")], [loadMsg "cfg2", absPathMsg "x"]⟩, false) := by
  decide

/-- Claim C9: parse_config_file is total at its public boundary; its result
type already rules out escaping exceptions, and whenever the frame body
raises any of the modelled exceptions (including those surfacing from the
recursive descent through the child closure), the except clause converts
the exception into logged lines and the return value false with the
environment kept as mutated. -/
theorem parse_catches_all_errors (fs : FS) (fuel : Nat) (p : String) (st : St)
    (d : Doc) (st1 : St) (e : PyErr)
    (hd : fsLookup fs p = some d)
    (hp : processItems (parse_config_file_child fs fuel) d none
        (addLog st (loadMsg p)) = (st1, Ctl.exc e)) :
    parse_config_file fs fuel p st = (excLogs st1 e p, false) := by
  rw [parse_config_file_eq]
  simp only [parse_config_file_body, hd, hp]

/-- Witness for claim C9: a top-level include list without the seeded
INCLUDE_CONFIGS key raises KeyError, which is converted to false. -/
theorem parse_catches_all_errors_witness :
    parse_config_file fsSeedless 2 "f" ⟨[], []⟩
      = (excLogs ⟨[], [loadMsg "f"]⟩ (PyErr.keyError "INCLUDE_CONFIGS") "f", false) :=
  parse_catches_all_errors fsSeedless 2 "f" ⟨[], []⟩
    [("INCLUDE_CONFIGS", JVal.list ["g"])] ⟨[], [loadMsg "f"]⟩
    (PyErr.keyError "INCLUDE_CONFIGS") (by decide) (by decide)

/-- Claim C10 counterexample: the claim states that replacement values
containing tokens are never substituted within the call; substituting the
string of the tokens A then B, where A expands to the text of the B token
and B expands to y, yields y followed by the untouched original B token:
the first-occurrence replacement for B landed inside the text contributed
by the replacement value for A, which therefore was substituted. -/
theorem substitute_replacement_token_consumed :
    substitute_env_variables "$A $B" [("A", "$B"), ("B", "y")]
      = (some "y $B", []) ∧ ("y $B" : String) ≠ "$B y" := by
  exact ⟨rfl, by decide⟩

/-- Claim C10 amended: success or failure of a call is decided solely by
the tokens found in the original input (the scan list is computed once, so
replacement values are never re-scanned for new tokens), and a string whose
scan finds no token, in particular one whose dollar signs are not followed
by word characters, is passed through unchanged; however a token occurrence
contributed by an earlier replacement value can be consumed by the later
replacement of a token with the same name, since each replacement targets
the first occurrence in the current string. -/
theorem substitute_decided_by_original_tokens (s : String) (env : Env) :
    ((substitute_env_variables s env).1 = none ↔
      (firstMissing env (findTokens s.data)).isSome = true) ∧
    (findTokens s.data = [] → substitute_env_variables s env = (some s, [])) := by
  constructor
  · rw [subst_char]
    cases firstMissing env (findTokens s.data) <;> simp
  · intro h
    rw [subst_char, h]
    show (some (String.mk (applyTokens env [] s.data)), []) = (some s, [])
    rw [show applyTokens env [] s.data = s.data from rfl, string_mk_data]

/-- Witness for the amended claim C10: a dollar sign not followed by a word
character is passed through unchanged. -/
theorem substitute_decided_by_original_tokens_witness :
    substitute_env_variables "a$ $" [("A", "x")] = (some "a$ $", []) :=
  (substitute_decided_by_original_tokens "a$ $" [("A", "x")]).2 (by decide)
